import Mathlib

/- Verification development for the xmr-bridge repository.

   Shallow embedding of the bridge bookkeeping pipeline:
   - the SQLite-backed ledger store and identity map (src/database.py),
   - the wallet subaddress allocation and transfer query (src/monero_wallet.py),
   - the deposit monitor poll loop (src/monero_monitor.py),
   - the orchestrator deposit callback (src/bridge.py),
   - the operator transport receive path (src/network/p2p.py),
   - the FROST coordinator guards (src/frost/coordinator.py), together with a
     spec-modelled signing protocol for the unimplemented protocol rounds.

   Databases are modelled as in-memory tables (lists of rows) with the SQLite
   statements of src/database.py translated operation by operation; the
   asyncio plumbing is dropped, each awaited Python coroutine becoming a pure
   state transformer.  External collaborators (the Monero wallet RPC, the
   Secret Network mint call, the Python eval builtin) enter as explicit
   inputs of each step.  A raised Python exception becomes an explicit error
   outcome; in particular, the monitor calls the async user lookup without
   await (src/monero_monitor.py line 127), so on that path the lookup result
   is a truthy coroutine object and the next use of it raises TypeError. -/

namespace XmrBridge

/- ------------------------------------------------------------------ -/
/- src/database.py : BridgeDatabase                                    -/
/- ------------------------------------------------------------------ -/

/-- Row of the processed_deposits table (src/database.py lines 53-60). -/
structure DepositRecord where
  tx_hash : String
  amount : Nat
  subaddress : String
  secret_address : String
  secret_tx_hash : String
deriving DecidableEq, Repr

/-- Row of the subaddress_mappings table (src/database.py lines 39-46). -/
structure SubaddressMapping where
  account : Nat
  subaddress_idx : Nat
  subaddress : String
  secret_address : String
deriving DecidableEq, Repr

/-- The bridge SQLite database: processed_deposits, subaddress_mappings and
the bridge_state key-value table (src/database.py _init_db). -/
structure BridgeDb where
  processed_deposits : List DepositRecord
  subaddress_mappings : List SubaddressMapping
  bridge_state : List (String × String)
deriving DecidableEq, Repr

/-- The empty database produced by _init_db on a fresh file. -/
def BridgeDb.empty : BridgeDb := ⟨[], [], []⟩

/-- SQLite INSERT OR REPLACE INTO processed_deposits keyed by tx_hash:
the conflicting row (same primary key) is deleted and the new row inserted. -/
def insertOrReplaceDeposit (rows : List DepositRecord) (r : DepositRecord) :
    List DepositRecord :=
  rows.filter (fun x => !(x.tx_hash == r.tx_hash)) ++ [r]

/-- BridgeDatabase.mark_deposit_processed (src/database.py lines 202-228). -/
def mark_deposit_processed (db : BridgeDb) (tx_hash : String) (amount : Nat)
    (subaddress : String) (secret_address : String) (secret_tx_hash : String) :
    BridgeDb :=
  { db with processed_deposits :=
      (insertOrReplaceDeposit db.processed_deposits
        ⟨tx_hash, amount, subaddress, secret_address, secret_tx_hash⟩) }

/-- BridgeDatabase.is_deposit_processed (src/database.py lines 184-200):
SELECT 1 FROM processed_deposits WHERE tx_hash = ?, true iff a row exists. -/
def is_deposit_processed (db : BridgeDb) (tx_hash : String) : Bool :=
  db.processed_deposits.any (fun r => r.tx_hash == tx_hash)

/-- The stored processed-deposit row for a key, if any (the row SELECT by
primary key would return). -/
def getProcessedDeposit (db : BridgeDb) (tx_hash : String) :
    Option DepositRecord :=
  db.processed_deposits.find? (fun r => r.tx_hash == tx_hash)

/-- SQLite INSERT OR REPLACE INTO subaddress_mappings keyed by
(account, subaddress_index). -/
def insertOrReplaceMapping (rows : List SubaddressMapping)
    (m : SubaddressMapping) : List SubaddressMapping :=
  rows.filter
      (fun x => !(x.account == m.account && x.subaddress_idx == m.subaddress_idx))
    ++ [m]

/-- BridgeDatabase.save_subaddress_mapping (src/database.py lines 84-109). -/
def save_subaddress_mapping (db : BridgeDb) (account : Nat) (idx : Nat)
    (subaddress : String) (secret_address : String) : BridgeDb :=
  { db with subaddress_mappings :=
      (insertOrReplaceMapping db.subaddress_mappings
        ⟨account, idx, subaddress, secret_address⟩) }

/-- BridgeDatabase.get_secret_address_for_subaddress
(src/database.py lines 111-134). -/
def get_secret_address_for_subaddress (db : BridgeDb) (account : Nat)
    (idx : Nat) : Option String :=
  (db.subaddress_mappings.find?
      (fun m => m.account == account && m.subaddress_idx == idx)).map
    (fun m => m.secret_address)

/-- BridgeDatabase.get_subaddress_for_secret_address
(src/database.py lines 136-160). -/
def get_subaddress_for_secret_address (db : BridgeDb)
    (secret_address : String) : Option (Nat × Nat × String) :=
  (db.subaddress_mappings.find? (fun m => m.secret_address == secret_address)).map
    (fun m => (m.account, m.subaddress_idx, m.subaddress))

/-- SELECT MAX(subaddress_index) FROM subaddress_mappings WHERE account = ?,
with SQL NULL (no rows) read back as 0 by the Python code. -/
def maxSubaddressIdx (db : BridgeDb) (account : Nat) : Nat :=
  ((db.subaddress_mappings.filter (fun m => m.account == account)).map
      (fun m => m.subaddress_idx)).foldr max 0

/-- BridgeDatabase.get_next_subaddress_index (src/database.py lines 162-182):
max existing index for the account (0 when none) plus one. -/
def get_next_subaddress_index (db : BridgeDb) (account : Nat) : Nat :=
  maxSubaddressIdx db account + 1

/-- BridgeDatabase.get_state (src/database.py lines 274-291): lookup in the
bridge_state key-value table. -/
def get_state (db : BridgeDb) (key : String) : Option String :=
  (db.bridge_state.find? (fun kv => kv.1 == key)).map (fun kv => kv.2)

/-- BridgeDatabase.set_state (src/database.py lines 293-308). -/
def set_state (db : BridgeDb) (key : String) (value : String) : BridgeDb :=
  { db with bridge_state :=
      db.bridge_state.filter (fun kv => !(kv.1 == key)) ++ [(key, value)] }

/- ------------------------------------------------------------------ -/
/- src/monero_wallet.py : MoneroWalletManager                          -/
/- ------------------------------------------------------------------ -/

/-- MoneroDeposit dataclass (src/monero_wallet.py lines 15-23). -/
structure MoneroDeposit where
  tx_hash : String
  amount : Nat
  confirmations : Nat
  subaddress : String
  subaddress_idx : Nat × Nat
  block_height : Nat
deriving DecidableEq, Repr

/-- One entry of the wallet-RPC get_transfers response, with the dictionary
defaults of the Python code already applied: a missing subaddr_index entry
reads as major 0 minor 0, missing height and confirmations as 0, a missing
address as the empty string. -/
structure RawTransfer where
  txid : String
  amount : Nat
  confirmations : Nat
  address : String
  subaddr_major : Nat
  subaddr_minor : Nat
  height : Nat
deriving DecidableEq, Repr

/-- The MoneroDeposit built from one RPC transfer entry
(src/monero_wallet.py lines 227-234). -/
def toDeposit (t : RawTransfer) : MoneroDeposit :=
  { tx_hash := t.txid
    amount := t.amount
    confirmations := t.confirmations
    subaddress := t.address
    subaddress_idx := (t.subaddr_major, t.subaddr_minor)
    block_height := t.height }

/-- MoneroWalletManager.get_transfers (src/monero_wallet.py lines 191-242).
The RPC outcome is an explicit input, none standing for a raised exception,
which the except branch turns into an empty result list; on a successful
response every transfer whose subaddress index is major 0 minor 0 (the
primary wallet address) is skipped and the rest become deposits. -/
def get_transfers (rpc : Option (List RawTransfer)) : List MoneroDeposit :=
  match rpc with
  | none => []
  | some ts =>
    (ts.filter
        (fun t => !(t.subaddr_major == 0 && t.subaddr_minor == 0))).map toDeposit

/-- MoneroWalletManager.generate_subaddress (src/monero_wallet.py lines
111-148), with the database present.  The cryptographic derivation
self.address.with_subaddress performed by the external monero library is
passed in as the function derive. -/
def generate_subaddress (derive : Nat → Nat → String) (db : BridgeDb)
    (user : String) : String × BridgeDb :=
  match get_subaddress_for_secret_address db user with
  | some t => (t.2.2, db)
  | none =>
    let account := 0
    let idx := get_next_subaddress_index db account
    let sub := derive account idx
    (sub, save_subaddress_mapping db account idx sub user)

/-- MoneroWalletManager.get_user_for_subaddress (src/monero_wallet.py lines
332-344), with the database present. -/
def get_user_for_subaddress (db : BridgeDb) (account : Nat) (idx : Nat) :
    Option String :=
  get_secret_address_for_subaddress db account idx

/- ------------------------------------------------------------------ -/
/- src/monero_monitor.py : MoneroDepositMonitor                        -/
/- ------------------------------------------------------------------ -/

/-- In-memory monitor state: the processed_txs set and the
last_checked_height watermark (src/monero_monitor.py lines 34-38). -/
structure MonitorState where
  processed_txs : List String
  last_checked_height : Nat
deriving DecidableEq, Repr

/-- A Python exception escaping a modelled call. -/
inductive PyError where
  | typeError
deriving DecidableEq, Repr

/-- MoneroDepositMonitor._process_deposit (src/monero_monitor.py lines
102-155): skip if in the in-memory processed set, then compute
confirmations as current height minus deposit height plus one (Python int
arithmetic, hence Int) and return if below min_confirmations.  Past the
confirmation gate the source binds user_id at line 127 to the result of
calling the async get_user_for_subaddress WITHOUT await: user_id is a
coroutine object, so the database is never consulted on this path and the
falsiness check at line 132 never fires; the f-string at line 141 then
subscripts the coroutine, raising TypeError.  The processed_txs.add at
line 145 and the callback invocation at lines 148-155 sit after that raise
and are unreachable, so the call either returns with the state unchanged
and nothing delivered, or raises. -/
def process_deposit (min_confirmations : Nat) (st : MonitorState)
    (d : MoneroDeposit) (current_height : Nat) :
    Except PyError (MonitorState × Option MoneroDeposit) :=
  if st.processed_txs.contains d.tx_hash then Except.ok (st, none)
  else
    if (current_height : Int) - (d.block_height : Int) + 1
        < (min_confirmations : Int) then Except.ok (st, none)
    else Except.error PyError.typeError

/-- The deposit loop of MoneroDepositMonitor._check_deposits (lines 96-97):
deposits are processed in order; a raised TypeError aborts the loop,
keeping the state reached and the deliveries made so far and flagging the
escaped exception. -/
def process_deposits (min_confirmations : Nat) (st : MonitorState)
    (ds : List MoneroDeposit) (current_height : Nat) :
    MonitorState × List MoneroDeposit × Bool :=
  match ds with
  | [] => (st, [], false)
  | d :: rest =>
    match process_deposit min_confirmations st d current_height with
    | Except.error _ => (st, [], true)
    | Except.ok p =>
      let q := process_deposits min_confirmations p.1 rest current_height
      (q.1, p.2.toList ++ q.2.1, q.2.2)

/-- Modelled from the spec: the external Monero wallet-RPC collaborator
(section 6, the getBlockOrTransfers query service), excluded from the
source as an opaque chain RPC.  Given the chain's full list of incoming
transfers, a get_transfers query with filter_by_height set and a min_height
returns the transfers at height at least min_height; this is the reading
most favourable to the monitor, the real RPC excluding the min_height block
itself. -/
def wallet_rpc_transfers (chain : List RawTransfer) (min_height : Nat) :
    List RawTransfer :=
  chain.filter (fun t => decide (min_height ≤ t.height))

/-- MoneroDepositMonitor._check_deposits (src/monero_monitor.py lines
76-100), one poll cycle: current_height is the get_block_height answer (0
when that call failed, causing the early return), the transfer query is
issued with min_height equal to the watermark, and each fetched deposit is
processed.  The watermark assignment at line 100 runs only when no deposit
raised: an exception escaping _process_deposit aborts the cycle before it,
so last_checked_height does not advance on such a cycle.  query_ok tells
whether the wallet-RPC transfer query succeeded; its failure is swallowed
inside get_transfers.  Returns the state, the deposits delivered to the
callback, and whether an exception escaped the cycle (to be caught and
logged by _monitor_loop). -/
def check_deposits (min_confirmations : Nat) (chain : List RawTransfer)
    (st : MonitorState) (current_height : Nat) (query_ok : Bool) :
    MonitorState × List MoneroDeposit × Bool :=
  if current_height == 0 then (st, [], false)
  else
    let rpc := if query_ok
      then some (wallet_rpc_transfers chain st.last_checked_height)
      else none
    let p := process_deposits min_confirmations st (get_transfers rpc)
      current_height
    if p.2.2 then p
    else ({ p.1 with last_checked_height := current_height }, p.2.1, false)

/-- MoneroDepositMonitor.start (src/monero_monitor.py lines 48-58) on a
monitor fresh from __init__: the in-memory processed set starts empty and
last_checked_height is set to the current chain height; the persisted
database is not consulted. -/
def monitor_start (chain_height : Nat) : MonitorState :=
  { processed_txs := [], last_checked_height := chain_height }

/-- Repeated poll cycles of the monitor loop (_monitor_loop) over a schedule
of per-cycle environment observations (current chain height, whether the
transfer query succeeded), collecting every deposit delivered to the
callback across the run; the loop catches and logs any exception escaping
a cycle and carries on with the next one. -/
def monitor_run (min_confirmations : Nat) (chain : List RawTransfer)
    (st : MonitorState) (sched : List (Nat × Bool)) :
    MonitorState × List MoneroDeposit :=
  match sched with
  | [] => (st, [])
  | c :: rest =>
    let p := check_deposits min_confirmations chain st c.1 c.2
    let q := monitor_run min_confirmations chain p.1 rest
    (q.1, p.2.1 ++ q.2)

/- ------------------------------------------------------------------ -/
/- src/bridge.py : SimpleBridge                                        -/
/- ------------------------------------------------------------------ -/

/-- SimpleBridge._on_deposit (src/bridge.py lines 192-243): drop if the
database already has the deposit, resolve the recipient via the identity
map, mint on the Secret client, and only after a successful mint mark the
deposit processed.  The external mint call is an explicit outcome function
from recipient and amount, some secret tx hash on success, none when it
raised; the except branch logs and returns, leaving the deposit
unmarked. -/
def on_deposit (db : BridgeDb) (d : MoneroDeposit)
    (mint : String → Nat → Option String) : BridgeDb :=
  if is_deposit_processed db d.tx_hash then db
  else
    match get_user_for_subaddress db d.subaddress_idx.1 d.subaddress_idx.2 with
    | none => db
    | some user =>
      match mint user d.amount with
      | none => db
      | some secret_tx =>
        mark_deposit_processed db d.tx_hash d.amount d.subaddress user secret_tx

/-- The monitor's per-deposit loop with the orchestrator callback attached:
a delivery from _process_deposit would be handled by
SimpleBridge._on_deposit (which may write the database used by later
iterations), and the TypeError raised on every confirmed deposit aborts
the loop before any delivery. -/
def bridge_process (min_confirmations : Nat)
    (mint : String → Nat → Option String) (db : BridgeDb)
    (st : MonitorState) (ds : List MoneroDeposit) (current_height : Nat) :
    BridgeDb × MonitorState × Bool :=
  match ds with
  | [] => (db, st, false)
  | d :: rest =>
    match process_deposit min_confirmations st d current_height with
    | Except.error _ => (db, st, true)
    | Except.ok p =>
      match p.2 with
      | none => bridge_process min_confirmations mint db p.1 rest
          current_height
      | some dd => bridge_process min_confirmations mint
          (on_deposit db dd mint) p.1 rest current_height

/-- One full bridge poll cycle: _check_deposits with the _on_deposit
callback of SimpleBridge as the monitor's deposit handler; as in
check_deposits, the line-100 watermark assignment is skipped when an
exception escapes the deposit loop. -/
def bridge_cycle (min_confirmations : Nat) (chain : List RawTransfer)
    (mint : String → Nat → Option String) (db : BridgeDb)
    (st : MonitorState) (current_height : Nat) (query_ok : Bool) :
    BridgeDb × MonitorState × Bool :=
  if current_height == 0 then (db, st, false)
  else
    let rpc := if query_ok
      then some (wallet_rpc_transfers chain st.last_checked_height)
      else none
    let p := bridge_process min_confirmations mint db st (get_transfers rpc)
      current_height
    if p.2.2 then p
    else (p.1, { p.2.1 with last_checked_height := current_height }, false)

/- ------------------------------------------------------------------ -/
/- src/network/p2p.py : P2PNetwork                                     -/
/- ------------------------------------------------------------------ -/

/-- One iteration of the receive loop of P2PNetwork._handle_connection
(src/network/p2p.py lines 122-158): an empty read ends the loop; otherwise
line 146 evaluates the decoded line with the Python eval builtin.  pyEval
is that external evaluator given as an explicit input, none standing for a
raised evaluation error (SyntaxError on a line that is not a valid Python
expression), in which case the except clause at line 151 logs and the
handler is never called; on success the resulting value is handed to the
registered message handler unconditionally whenever one is set.  No
signature verification or schema validation occurs on any path.  Returns
the message dispatched to the handler, if any. -/
def handle_connection_line (pyEval : String → Option String)
    (handler_set : Bool) (line : String) : Option String :=
  if line.isEmpty then none
  else
    match pyEval line with
    | none => none
    | some msg => if handler_set then some msg else none

/- ------------------------------------------------------------------ -/
/- src/frost/coordinator.py : FrostCoordinator                         -/
/- ------------------------------------------------------------------ -/

/-- The FrostError exceptions raised by src/frost/coordinator.py, by raise
site. -/
inductive FrostErrorKind where
  | thresholdExceedsTotal (threshold total : Int)
  | notEnoughParticipants (need : Int) (got : Nat)
  | notEnoughShares (need : Int) (got : Nat)
  | verificationFailed
deriving DecidableEq, Repr

/-- The coordinator's stored parameters (src/frost/coordinator.py lines
31-32). -/
structure FrostCoordinator where
  threshold : Int
  total_participants : Int
deriving DecidableEq, Repr

/-- FrostCoordinator.__init__ (src/frost/coordinator.py lines 19-36):
raises FrostError when the threshold exceeds total_participants, otherwise
stores both parameters unchanged (Python ints, hence Int). -/
def FrostCoordinator.make (threshold : Int) (total_participants : Int) :
    Except FrostErrorKind FrostCoordinator :=
  if threshold > total_participants then
    Except.error (FrostErrorKind.thresholdExceedsTotal threshold total_participants)
  else Except.ok ⟨threshold, total_participants⟩

/-- Signing-session states of the protocol state machine (the section 4.1
state machine of the specification). -/
inductive SessionState where
  | collectingCommitments
  | commitmentsComplete
  | collectingShares
  | aggregated
  | verified
  | aborted
deriving DecidableEq, Repr

/-- Horner evaluation of a polynomial given by its coefficient list,
constant term first. -/
def evalPoly (coeffs : List ℚ) (x : ℚ) : ℚ :=
  coeffs.foldr (fun c acc => c + x * acc) 0

/-- Modelled from the spec: after DKG (section 4.1) the group secret is the
constant term of a polynomial of degree below T whose value at a
participant's index is that participant's long-term secret share.  In the
exponent-transparent model of this development (section 1 declares exact
elliptic-curve arithmetic a non-goal) the group public key is identified
with the group secret. -/
def group_public_key (coeffs : List ℚ) : ℚ := evalPoly coeffs 0

/-- Lagrange interpolation coefficient at zero for node i among the nodes
of the signing set S. -/
def lagrangeCoeffAtZero (S : Finset ℕ) (i : ℕ) : ℚ :=
  ∏ j ∈ S.erase i, ((j : ℚ) / ((j : ℚ) - (i : ℚ)))

/-- Modelled from the spec: a round-2 signature share (section 4.1 Signing)
in the exponent-transparent model, Schnorr-style: the participant's one-time
nonce plus challenge times its Lagrange-weighted secret share. -/
def signature_share (coeffs : List ℚ) (S : Finset ℕ) (nonce : ℕ → ℚ)
    (c : ℚ) (i : ℕ) : ℚ :=
  nonce i + c * (lagrangeCoeffAtZero S i * evalPoly coeffs (i : ℚ))

/-- Modelled from the spec: Schnorr verification of an aggregate signature
against the group public key in the exponent-transparent model: the
aggregate response equals the aggregate nonce commitment plus challenge
times public key. -/
def schnorr_verify (pk : ℚ) (hash : ℚ → ℚ → ℚ) (msg : ℚ) (R z : ℚ) : Bool :=
  z == R + hash R msg * pk

/-- FrostCoordinator.aggregate_signature_shares (src/frost/coordinator.py
lines 87-107): the guard requiring at least threshold many shares is the
code; the aggregation below it, a NotImplementedError stub in the source,
is modelled from the spec as the sum of the shares. -/
def aggregate_signature_shares (co : FrostCoordinator) (shares : List ℚ) :
    Except FrostErrorKind ℚ :=
  if (shares.length : Int) < co.threshold then
    Except.error (FrostErrorKind.notEnoughShares co.threshold shares.length)
  else Except.ok (shares.foldr (fun a b => a + b) 0)

/-- FrostCoordinator.coordinate_signing (src/frost/coordinator.py lines
56-85): the guard requiring at least threshold many participants is the
code; the signing rounds below it, NotImplementedError stubs in the source,
are modelled from the spec (section 4.1 Signing and its state machine):
round 1 collects one nonce commitment per signing-set member, round 2
collects one signature share per member, aggregation combines the shares,
and the coordinator verifies the aggregate against the group public key
before acceptance, the session ending VERIFIED on success and failing
otherwise. -/
def coordinate_signing (co : FrostCoordinator) (coeffs : List ℚ)
    (hash : ℚ → ℚ → ℚ) (msg : ℚ) (S : Finset ℕ) (nonce : ℕ → ℚ) :
    Except FrostErrorKind (SessionState × ℚ × ℚ) :=
  if (S.card : Int) < co.threshold then
    Except.error (FrostErrorKind.notEnoughParticipants co.threshold S.card)
  else
    match aggregate_signature_shares co
        ((S.sort (fun a b => a ≤ b)).map
          (signature_share coeffs S nonce (hash (∑ i ∈ S, nonce i) msg))) with
    | Except.error e => Except.error e
    | Except.ok z =>
      if schnorr_verify (group_public_key coeffs) hash msg
          (∑ i ∈ S, nonce i) z then
        Except.ok (SessionState.verified, ∑ i ∈ S, nonce i, z)
      else
        Except.error FrostErrorKind.verificationFailed

/- ------------------------------------------------------------------ -/
/- Concrete data for the claim exhibits                                -/
/- ------------------------------------------------------------------ -/

/-- Sample Monero tx hash. -/
def txC1 : String := "t1"

/-- Sample Monero tx hash. -/
def txC2 : String := "t2"

/-- Sample Monero tx hash. -/
def txC4 : String := "t4"

/-- Sample Monero tx hash. -/
def txC6 : String := "t6"

/-- Sample Monero tx hash. -/
def txC7 : String := "t7"

/-- Sample Monero tx hash. -/
def txC9 : String := "t9"

/-- Sample Monero subaddress string. -/
def subB : String := "sub1"

/-- Sample Secret Network user address. -/
def usrC : String := "secretu1"

/-- Second sample Secret Network user address. -/
def usrD : String := "secretu2"

/-- Sample Secret Network mint tx hash. -/
def stxD : String := "sx1"

/-- Second sample Secret Network mint tx hash. -/
def stxE : String := "sx2"

/-- A database holding one identity mapping: subaddress (0, 1) belongs to
user usrC. -/
def dbMap : BridgeDb := save_subaddress_mapping BridgeDb.empty 0 1 subB usrC

/-- A mint outcome that always fails (the Secret client raised). -/
def mintFail : String → Nat → Option String := fun _ _ => none

/-- A mint outcome that always succeeds with tx hash stxD. -/
def mintOk : String → Nat → Option String := fun _ _ => some stxD

/- ------------------------------------------------------------------ -/
/- C10 : FrostCoordinator construction guard                           -/
/- ------------------------------------------------------------------ -/

/-- C10: constructing a FrostCoordinator with threshold strictly greater
than total_participants always raises a FrostError, and construction with
threshold at most total_participants always succeeds with both parameters
stored unchanged. -/
theorem frost_coordinator_make_spec (t n : Int) :
    (n < t → FrostCoordinator.make t n
        = Except.error (FrostErrorKind.thresholdExceedsTotal t n)) ∧
    (t ≤ n → FrostCoordinator.make t n = Except.ok ⟨t, n⟩) := by
  constructor
  · intro h
    simp [FrostCoordinator.make, h]
  · intro h
    simp [FrostCoordinator.make, not_lt.mpr h]

/-- C10 witness: the guard observed at threshold 2 of 3 (accepted) and
threshold 5 of 3 (rejected). -/
theorem frost_coordinator_make_spec_witness :
    FrostCoordinator.make 2 3 = Except.ok ⟨2, 3⟩ ∧
    FrostCoordinator.make 5 3
      = Except.error (FrostErrorKind.thresholdExceedsTotal 5 3) :=
  ⟨(frost_coordinator_make_spec 2 3).2 (by decide),
   (frost_coordinator_make_spec 5 3).1 (by decide)⟩

/- ------------------------------------------------------------------ -/
/- C9 : get_transfers silently drops primary-address credits           -/
/- ------------------------------------------------------------------ -/

/-- C9: a transfer credited to the primary wallet address (subaddress
account 0, index 0) is never reported as a deposit: every deposit returned
by get_transfers carries a subaddress index different from (0, 0), so only
subaddress-targeted deposits can enter the bridge pipeline. -/
theorem get_transfers_skips_primary (rpc : Option (List RawTransfer))
    (d : MoneroDeposit) (hd : d ∈ get_transfers rpc) :
    d.subaddress_idx ≠ (0, 0) := by
  match rpc with
  | none => simp [get_transfers] at hd
  | some ts =>
    simp only [get_transfers, List.mem_map, List.mem_filter] at hd
    obtain ⟨t, ⟨ht, hskip⟩, rfl⟩ := hd
    simp only [toDeposit, ne_eq, Prod.mk.injEq, not_and]
    intro hmaj hmin
    simp [hmaj, hmin] at hskip

/-- Sample transfer credited to subaddress (0, 1). -/
def sampleTransfer : RawTransfer :=
  ⟨txC9, 5, 12, subB, 0, 1, 100⟩

/-- Sample transfer credited to the primary address (0, 0). -/
def primaryTransfer : RawTransfer :=
  ⟨txC1, 5, 12, subB, 0, 0, 100⟩

/-- C9 witness: on a response holding a primary-address credit and a
subaddress credit, only the subaddress credit is reported, and the theorem
applies to it. -/
theorem get_transfers_skips_primary_witness :
    get_transfers (some [primaryTransfer, sampleTransfer])
      = [toDeposit sampleTransfer] ∧
    toDeposit sampleTransfer ∈ get_transfers (some [primaryTransfer, sampleTransfer]) ∧
    (toDeposit sampleTransfer).subaddress_idx ≠ (0, 0) :=
  ⟨by decide, by decide,
   get_transfers_skips_primary (some [primaryTransfer, sampleTransfer])
     (toDeposit sampleTransfer) (by decide)⟩

/- ------------------------------------------------------------------ -/
/- C1 : mark_deposit_processed is not write-once                       -/
/- ------------------------------------------------------------------ -/

/-- Database after a first mark of txC1 with amount 1 and counterpart
hash stxD. -/
def dbC1a : BridgeDb :=
  mark_deposit_processed BridgeDb.empty txC1 1 subB usrC stxD

/-- Database after a second mark of the same txC1 with amount 2 and
counterpart hash stxE. -/
def dbC1b : BridgeDb :=
  mark_deposit_processed dbC1a txC1 2 subB usrC stxE

/-- C1 counterexample: the processed-deposit record is not write-once.
After a first successful mark of txC1, a later mark with the same tx hash
but different amount and counterpart hash replaces the stored record
(SQLite INSERT OR REPLACE), so the stored record does change. -/
theorem mark_deposit_processed_not_write_once :
    getProcessedDeposit dbC1a txC1 = some ⟨txC1, 1, subB, usrC, stxD⟩ ∧
    getProcessedDeposit dbC1b txC1 = some ⟨txC1, 2, subB, usrC, stxE⟩ ∧
    getProcessedDeposit dbC1b txC1 ≠ getProcessedDeposit dbC1a txC1 := by
  decide

/-- C1 amended: a duplicate mark_deposit_processed call with identical
arguments leaves the database unchanged (duplicate identical calls are
no-ops), and once a tx hash is marked it remains marked across any later
mark call; a later call with different arguments, however, overwrites the
stored row, last write winning. -/
theorem mark_deposit_processed_idempotent_sticky (db : BridgeDb)
    (tx : String) (a : Nat) (s u x : String)
    (tx2 : String) (a2 : Nat) (s2 u2 x2 : String) :
    mark_deposit_processed (mark_deposit_processed db tx a s u x) tx a s u x
      = mark_deposit_processed db tx a s u x ∧
    is_deposit_processed (mark_deposit_processed db tx a s u x) tx = true ∧
    is_deposit_processed
        (mark_deposit_processed (mark_deposit_processed db tx a s u x)
          tx2 a2 s2 u2 x2) tx
      = true := by
  refine ⟨?_, ?_, ?_⟩
  · simp [mark_deposit_processed, insertOrReplaceDeposit, List.filter_append,
      List.filter_filter]
  · simp [is_deposit_processed, mark_deposit_processed, insertOrReplaceDeposit]
  · by_cases h : tx2 = tx
    · subst h
      simp [is_deposit_processed, mark_deposit_processed, insertOrReplaceDeposit]
    · simp [is_deposit_processed, mark_deposit_processed, insertOrReplaceDeposit,
        List.filter_append, List.any_append, h]
      exact Or.inr (Ne.symm h)

/- ------------------------------------------------------------------ -/
/- C5 : the transport dispatches unverified peer payloads              -/
/- ------------------------------------------------------------------ -/

/-- A peer-supplied line that is a valid Python expression (a list
literal) and carries no sender signature. -/
def forgedLine : String := "[1, 2]"

/-- A Python evaluator behaviour for the C5 witness, consistent with the
eval builtin on the chosen input: it evaluates the forged list literal
(representing the resulting value by its text) and raises on everything
else. -/
def pyEvalFn : String → Option String :=
  fun s => if s = forgedLine then some s else none

/-- C5 exhibit: whatever value the Python eval of a non-empty peer line
produces is dispatched to the registered handler as-is; there is no
verification step between evaluation and dispatch, so an unsigned payload
that is a valid Python expression reaches the handler, contrary to the
claim that sender-key signatures are verified and payloads
schema-validated before dispatch.  Dispatch is gated solely by
Python-expression validity, never by authentication. -/
theorem p2p_dispatches_unverified_payload (pyEval : String → Option String)
    (line : String) (msg : String) (hne : line.isEmpty = false)
    (hev : pyEval line = some msg) :
    handle_connection_line pyEval true line = some msg := by
  simp [handle_connection_line, hne, hev]

/-- C5 witness: the unsigned forged list literal is evaluated and
dispatched unchanged. -/
theorem p2p_dispatches_unverified_payload_witness :
    forgedLine.isEmpty = false ∧
    pyEvalFn forgedLine = some forgedLine ∧
    handle_connection_line pyEvalFn true forgedLine = some forgedLine :=
  ⟨by decide, by decide,
   p2p_dispatches_unverified_payload pyEvalFn forgedLine forgedLine
     (by decide) (by decide)⟩

/- ------------------------------------------------------------------ -/
/- C2 : confirmation gating and the lost under-confirmed deposit       -/
/- ------------------------------------------------------------------ -/

/-- A deposit of 9 piconeros to subaddress (0, 1) in block 100. -/
def depC2 : RawTransfer := ⟨txC2, 9, 0, subB, 0, 1, 100⟩

/-- Poll schedule observing every chain height from 100 to 120, every
transfer query succeeding. -/
def schedC2 : List (Nat × Bool) :=
  (List.range 21).map (fun k => (100 + k, true))

/-- Poll schedule observing every chain height from 100 to 108. -/
def schedC2early : List (Nat × Bool) :=
  (List.range 9).map (fun k => (100 + k, true))

/-- C2 exhibit: with min_confirmations 10 and a deposit in block 100,
nothing is delivered while the current height is below 109 (those cycles
pass cleanly through the confirmation gate); but the deposit is never
delivered at all, for two independent reasons.  Over the run up to height
120 every clean cycle advances last_checked_height, so the under-confirmed
deposit drops out of the min_height fetch window before confirming.  And
when a confirmed deposit is fetched - a first poll at height 109 from the
fresh watermark - the cycle raises TypeError (the unawaited user lookup)
before any delivery, leaves the watermark at 95, and every later cycle
re-fetches and re-crashes, again delivering nothing. -/
theorem confirmed_deposit_never_delivered :
    (monitor_run 10 [depC2] (monitor_start 95) schedC2early).2 = [] ∧
    (monitor_run 10 [depC2] (monitor_start 95) schedC2).2 = [] ∧
    (check_deposits 10 [depC2] (monitor_start 95) 109 true).2.1 = [] ∧
    (check_deposits 10 [depC2] (monitor_start 95) 109 true).2.2 = true ∧
    (check_deposits 10 [depC2] (monitor_start 95) 109 true).1
      = monitor_start 95 ∧
    (monitor_run 10 [depC2] (monitor_start 95) [(109, true), (115, true)]).2
      = [] := by
  decide

/- ------------------------------------------------------------------ -/
/- C4 : a failed mint is never retried                                 -/
/- ------------------------------------------------------------------ -/

/-- A deposit of 3 piconeros to subaddress (0, 1) in block 100. -/
def depC4 : RawTransfer := ⟨txC4, 3, 0, subB, 0, 1, 100⟩

/-- Every successful outcome of process_deposit is the unchanged state with
nothing delivered: the mutation and delivery of the source (lines 145 and
148-155) lie beyond the TypeError raise. -/
lemma process_deposit_ok (minc : Nat) (st : MonitorState) (d : MoneroDeposit)
    (h : Nat) (p : MonitorState × Option MoneroDeposit)
    (hp : process_deposit minc st d h = Except.ok p) : p = (st, none) := by
  unfold process_deposit at hp
  split_ifs at hp
  · exact (Except.ok.inj hp).symm
  · exact (Except.ok.inj hp).symm

/-- The deposit loop never changes the monitor state and never delivers. -/
lemma process_deposits_inert (minc : Nat) (st : MonitorState)
    (ds : List MoneroDeposit) (h : Nat) :
    (process_deposits minc st ds h).1 = st ∧
    (process_deposits minc st ds h).2.1 = [] := by
  induction ds generalizing st with
  | nil => exact ⟨rfl, rfl⟩
  | cons d rest ih =>
    unfold process_deposits
    cases hp : process_deposit minc st d h with
    | error e => exact ⟨rfl, rfl⟩
    | ok p =>
      have hpe := process_deposit_ok minc st d h p hp
      subst hpe
      exact ⟨(ih st).1, by simp [(ih st).2]⟩

/-- The per-deposit loop with the orchestrator callback never writes the
database: the delivery path feeding _on_deposit is unreachable. -/
lemma bridge_process_db (minc : Nat) (mint : String → Nat → Option String)
    (db : BridgeDb) (st : MonitorState) (ds : List MoneroDeposit) (h : Nat) :
    (bridge_process minc mint db st ds h).1 = db := by
  induction ds generalizing db st with
  | nil => rfl
  | cons d rest ih =>
    unfold bridge_process
    cases hp : process_deposit minc st d h with
    | error e => rfl
    | ok p =>
      have hpe := process_deposit_ok minc st d h p hp
      subst hpe
      exact ih db st

/-- C4: a processing failure leaves the deposit unmarked in the
processed-deposits store - indeed no bridge cycle ever writes it, the
delivery path being dead behind the TypeError of the unawaited lookup -
and a cycle aborted by the raised exception keeps its entire monitor
state, watermark included, so the next poll cycle re-fetches the same
range and retries the whole flow for that deposit, observed concretely on
a confirmed deposit whose processing fails at height 120 and is re-run and
fails again at 121; and _on_deposit invokes markProcessed only when the
mint call has succeeded: any database change it makes exhibits a resolved
recipient and a successful mint outcome. -/
theorem failure_leaves_unmarked_and_retries
    (minc : Nat) (chain : List RawTransfer)
    (mint : String → Nat → Option String) (db : BridgeDb)
    (st : MonitorState) (h : Nat) (qok : Bool) (d : MoneroDeposit) :
    (bridge_cycle minc chain mint db st h qok).1 = db ∧
    ((check_deposits minc chain st h qok).2.2 = true →
      (check_deposits minc chain st h qok).1 = st) ∧
    (check_deposits 10 [depC4] (monitor_start 95) 120 true).2.2 = true ∧
    (check_deposits 10 [depC4] (monitor_start 95) 120 true).1
      = monitor_start 95 ∧
    (check_deposits 10 [depC4]
        (check_deposits 10 [depC4] (monitor_start 95) 120 true).1
        121 true).2.2 = true ∧
    (on_deposit db d mint ≠ db →
      ∃ user stx,
        get_user_for_subaddress db d.subaddress_idx.1 d.subaddress_idx.2
          = some user ∧
        mint user d.amount = some stx ∧
        on_deposit db d mint
          = mark_deposit_processed db d.tx_hash d.amount d.subaddress
              user stx) := by
  refine ⟨?_, ?_, by decide, by decide, by decide, ?_⟩
  · unfold bridge_cycle
    by_cases h0 : (h == 0) = true
    · simp [h0]
    · have hb := bridge_process_db minc mint db st
        (get_transfers (if qok
          then some (wallet_rpc_transfers chain st.last_checked_height)
          else none)) h
      by_cases hcr : (bridge_process minc mint db st
          (get_transfers (if qok
            then some (wallet_rpc_transfers chain st.last_checked_height)
            else none)) h).2.2 = true
      · simpa [h0, hcr] using hb
      · rw [Bool.not_eq_true] at hcr
        simpa [h0, hcr] using hb
  · intro hc
    by_cases h0 : (h == 0) = true
    · simp [check_deposits, h0] at hc
    · by_cases hcr : (process_deposits minc st
          (get_transfers (if qok
            then some (wallet_rpc_transfers chain st.last_checked_height)
            else none)) h).2.2 = true
      · have hi := process_deposits_inert minc st
          (get_transfers (if qok
            then some (wallet_rpc_transfers chain st.last_checked_height)
            else none)) h
        simp [check_deposits, h0, hcr, hi.1]
      · simp [check_deposits, h0, hcr] at hc
  · intro hne2
    by_cases hip : is_deposit_processed db d.tx_hash = true
    · exact absurd (by simp [on_deposit, hip]) hne2
    · cases hu : get_user_for_subaddress db d.subaddress_idx.1
          d.subaddress_idx.2 with
      | none => exact absurd (by simp [on_deposit, hip, hu]) hne2
      | some user =>
        cases hm : mint user d.amount with
        | none => exact absurd (by simp [on_deposit, hip, hu, hm]) hne2
        | some stx =>
          exact ⟨user, stx, rfl, hm, by simp [on_deposit, hip, hu, hm]⟩

/-- C4 witness: on the crashing input, the database is unchanged, the
watermark is kept so the range is re-fetched, and the mint-success branch
of _on_deposit is the only one that marks. -/
theorem failure_leaves_unmarked_and_retries_witness :
    (bridge_cycle 10 [depC4] mintFail dbMap (monitor_start 95) 120 true).1
      = dbMap ∧
    (check_deposits 10 [depC4] (monitor_start 95) 120 true).1
      = monitor_start 95 ∧
    (∃ user stx,
      get_user_for_subaddress dbMap (toDeposit depC4).subaddress_idx.1
          (toDeposit depC4).subaddress_idx.2 = some user ∧
      mintOk user (toDeposit depC4).amount = some stx ∧
      on_deposit dbMap (toDeposit depC4) mintOk
        = mark_deposit_processed dbMap (toDeposit depC4).tx_hash
            (toDeposit depC4).amount (toDeposit depC4).subaddress
            user stx) :=
  ⟨(failure_leaves_unmarked_and_retries 10 [depC4] mintFail dbMap
      (monitor_start 95) 120 true (toDeposit depC4)).1,
   (failure_leaves_unmarked_and_retries 10 [depC4] mintFail dbMap
      (monitor_start 95) 120 true (toDeposit depC4)).2.1 (by decide),
   (failure_leaves_unmarked_and_retries 10 [depC4] mintOk dbMap
      (monitor_start 95) 120 true (toDeposit depC4)).2.2.2.2.2
     (by decide)⟩

/- ------------------------------------------------------------------ -/
/- C6 : the watermark advances over a failed transfer query            -/
/- ------------------------------------------------------------------ -/

/-- A deposit of 7 piconeros to subaddress (0, 1) in block 105. -/
def depC6 : RawTransfer := ⟨txC6, 7, 0, subB, 0, 1, 105⟩

/-- The poll cycle at height 120 whose transfer query fails. -/
def cycleC6fail : MonitorState × List MoneroDeposit × Bool :=
  check_deposits 10 [depC6] ⟨[], 100⟩ 120 false

/-- C6 exhibit: on a cycle whose transfer query fails (get_transfers
swallows the exception and returns an empty list), the deposit loop runs
over nothing, raises nothing, and _check_deposits advances
last_checked_height from 100 to the current height 120; the deposit in
block 105 inside the failed range then lies below the fetch window of
every later successful cycle, which completes cleanly and keeps advancing
the watermark, so the event is skipped silently forever.  Had the query
succeeded in that cycle, the confirmed deposit would have been fetched and
its processing would have raised the TypeError of the unawaited lookup,
keeping the watermark at 100 - so the event would at least have stayed in
the fetch window for re-fetching, as the claim requires. -/
theorem watermark_advances_on_query_failure :
    cycleC6fail.1.last_checked_height = 120 ∧
    cycleC6fail.2.1 = [] ∧
    cycleC6fail.2.2 = false ∧
    (monitor_run 10 [depC6] cycleC6fail.1 [(125, true), (130, true)]).2
      = [] ∧
    (monitor_run 10 [depC6] cycleC6fail.1
        [(125, true), (130, true)]).1.last_checked_height = 130 ∧
    (check_deposits 10 [depC6] ⟨[], 100⟩ 120 true).2.2 = true ∧
    (check_deposits 10 [depC6] ⟨[], 100⟩ 120 true).1.last_checked_height
      = 100 := by
  decide

/- ------------------------------------------------------------------ -/
/- C7 : restart does not resume from the persisted watermark           -/
/- ------------------------------------------------------------------ -/

/-- Key under which a watermark might be persisted in bridge_state. -/
def keyH : String := "last_height"

/-- The persisted watermark value 100. -/
def valH : String := "100"

/-- Database holding the identity mapping and a persisted watermark of
100 in the bridge_state table. -/
def dbC7 : BridgeDb := set_state dbMap keyH valH

/-- A deposit of 11 piconeros to subaddress (0, 1) in block 120, above the
persisted watermark and not in the processed store. -/
def depC7 : RawTransfer := ⟨txC7, 11, 0, subB, 0, 1, 120⟩

/-- C7 exhibit: MoneroDepositMonitor.start never reads the database; a
monitor restarted when the chain is at height 150 has its watermark set to
150, not to the persisted 100 sitting in bridge_state, so the unprocessed
deposit in block 120 lies below its fetch window and is never re-evaluated
after the restart (the runs complete cleanly, delivering and raising
nothing).  A monitor genuinely resuming from watermark 100 would re-fetch
the deposit at once - its window contains it - and re-evaluate it, the
cycle reaching the confirmed-deposit processing (which then raises the
TypeError of the unawaited lookup, a separate defect). -/
theorem restart_ignores_persisted_watermark :
    get_state dbC7 keyH = some valH ∧
    (monitor_start 150).last_checked_height = 150 ∧
    (monitor_run 10 [depC7] (monitor_start 150)
        [(150, true), (160, true)]).2 = [] ∧
    wallet_rpc_transfers [depC7] (monitor_start 150).last_checked_height
      = [] ∧
    wallet_rpc_transfers [depC7] 100 = [depC7] ∧
    (check_deposits 10 [depC7] ⟨[], 100⟩ 150 true).2.2 = true ∧
    (check_deposits 10 [depC7] ⟨[], 100⟩ 150 true).1.last_checked_height
      = 100 := by
  decide

/- ------------------------------------------------------------------ -/
/- C3 : subaddress allocation is idempotent and strictly monotone      -/
/- ------------------------------------------------------------------ -/

/-- Every member of a list of naturals is bounded by its foldr max. -/
lemma le_foldr_max (l : List ℕ) (x : ℕ) (hx : x ∈ l) : x ≤ l.foldr max 0 := by
  induction l with
  | nil => cases hx
  | cons a l ih =>
    rcases List.mem_cons.mp hx with h | h
    · subst h; exact le_max_left _ _
    · exact le_trans (ih h) (le_max_right _ _)

/-- A foldr max over elements all bounded by the seed equals the seed. -/
lemma foldr_max_of_le (l : List ℕ) (b : ℕ) (h : ∀ x ∈ l, x ≤ b) :
    l.foldr max b = b := by
  induction l with
  | nil => rfl
  | cons a l ih =>
    simp only [List.foldr_cons]
    rw [ih (fun x hx => h x (List.mem_cons_of_mem _ hx))]
    exact max_eq_right (h a (List.mem_cons_self _ _))

/-- find? over an append whose first part has no hit. -/
lemma find?_append_none {α : Type} (p : α → Bool) (l1 l2 : List α)
    (h : l1.find? p = none) : (l1 ++ l2).find? p = l2.find? p := by
  induction l1 with
  | nil => rfl
  | cons a l ih =>
    cases hpa : p a with
    | true =>
      rw [List.find?_cons_of_pos _ hpa] at h
      cases h
    | false =>
      have hpa2 : ¬p a = true := by simp [hpa]
      rw [List.find?_cons_of_neg _ hpa2] at h
      rw [List.cons_append, List.find?_cons_of_neg _ hpa2]
      exact ih h

/-- find? over a filtered list misses when it misses the whole list. -/
lemma find?_filter_none {α : Type} (p q : α → Bool) (l : List α)
    (h : l.find? p = none) : (l.filter q).find? p = none := by
  rw [List.find?_eq_none] at h ⊢
  intro x hx
  exact h x (List.mem_of_mem_filter hx)

/-- The next subaddress index is strictly above every stored index of the
account. -/
lemma lt_get_next_subaddress_index (db : BridgeDb) (m : SubaddressMapping)
    (hm : m ∈ db.subaddress_mappings) (hacct : m.account = 0) :
    m.subaddress_idx < get_next_subaddress_index db 0 := by
  have hx : m.subaddress_idx ∈
      ((db.subaddress_mappings.filter (fun m2 => m2.account == 0)).map
        (fun m2 => m2.subaddress_idx)) :=
    List.mem_map_of_mem _ (List.mem_filter.mpr ⟨hm, by simp [hacct]⟩)
  exact Nat.lt_succ_of_le (le_foldr_max _ _ hx)

/-- Saving a mapping at the next free index bumps the next free index by
exactly one. -/
lemma get_next_after_save (db : BridgeDb) (sub : String) (u : String) :
    get_next_subaddress_index
        (save_subaddress_mapping db 0 (get_next_subaddress_index db 0) sub u) 0
      = get_next_subaddress_index db 0 + 1 := by
  have key : maxSubaddressIdx
      (save_subaddress_mapping db 0 (get_next_subaddress_index db 0) sub u) 0
      = get_next_subaddress_index db 0 := by
    unfold maxSubaddressIdx save_subaddress_mapping insertOrReplaceMapping
    simp only [List.filter_append, List.map_append, List.foldr_append,
      List.filter_cons, List.filter_nil, List.map_cons, List.map_nil,
      List.foldr_cons, List.foldr_nil, beq_self_eq_true, if_true, Nat.max_zero]
    apply foldr_max_of_le
    intro x hx
    obtain ⟨m2, hm2, rfl⟩ := List.mem_map.mp hx
    have hm3 := List.mem_filter.mp hm2
    have hm4 : m2 ∈ db.subaddress_mappings := List.mem_of_mem_filter hm3.1
    have hle : m2.subaddress_idx ≤ maxSubaddressIdx db 0 :=
      le_foldr_max _ _
        (List.mem_map_of_mem _ (List.mem_filter.mpr ⟨hm4, hm3.2⟩))
    exact le_trans hle (Nat.le_succ _)
  unfold get_next_subaddress_index at key ⊢
  rw [key]

/-- After saving a mapping for a user not yet mapped, the lookup by user
returns exactly the saved row. -/
lemma lookup_after_save (db : BridgeDb) (acct : Nat) (i : Nat)
    (sub : String) (u : String)
    (h : get_subaddress_for_secret_address db u = none) :
    get_subaddress_for_secret_address (save_subaddress_mapping db acct i sub u)
      u = some (acct, i, sub) := by
  have hfind : db.subaddress_mappings.find?
      (fun m => m.secret_address == u) = none := by
    cases hf : db.subaddress_mappings.find? (fun m => m.secret_address == u) with
    | none => rfl
    | some m =>
      unfold get_subaddress_for_secret_address at h
      rw [hf] at h
      cases h
  unfold get_subaddress_for_secret_address save_subaddress_mapping
    insertOrReplaceMapping
  rw [find?_append_none _ _ _ (find?_filter_none _ _ _ hfind)]
  simp

/-- Saving a mapping for one user does not create a mapping for another. -/
lemma lookup_other_after_save (db : BridgeDb) (acct : Nat) (i : Nat)
    (sub : String) (u : String) (u2 : String) (hne : u2 ≠ u)
    (h : get_subaddress_for_secret_address db u2 = none) :
    get_subaddress_for_secret_address (save_subaddress_mapping db acct i sub u)
      u2 = none := by
  have hfind : db.subaddress_mappings.find?
      (fun m => m.secret_address == u2) = none := by
    cases hf : db.subaddress_mappings.find? (fun m => m.secret_address == u2) with
    | none => rfl
    | some m =>
      unfold get_subaddress_for_secret_address at h
      rw [hf] at h
      cases h
  unfold get_subaddress_for_secret_address save_subaddress_mapping
    insertOrReplaceMapping
  rw [find?_append_none _ _ _ (find?_filter_none _ _ _ hfind)]
  simp [Ne.symm hne]

/-- Reduction of generate_subaddress on a user with no existing mapping. -/
lemma generate_subaddress_of_none (derive : Nat → Nat → String)
    (db : BridgeDb) (u : String)
    (h : get_subaddress_for_secret_address db u = none) :
    generate_subaddress derive db u
      = (derive 0 (get_next_subaddress_index db 0),
         save_subaddress_mapping db 0 (get_next_subaddress_index db 0)
           (derive 0 (get_next_subaddress_index db 0)) u) := by
  unfold generate_subaddress
  rw [h]

/-- Reduction of generate_subaddress on a user with an existing mapping. -/
lemma generate_subaddress_of_some (derive : Nat → Nat → String)
    (db : BridgeDb) (u : String) (acct : Nat) (i : Nat) (sub : String)
    (h : get_subaddress_for_secret_address db u = some (acct, i, sub)) :
    generate_subaddress derive db u = (sub, db) := by
  unfold generate_subaddress
  rw [h]

/-- C3: deposit-address allocation is idempotent per identity and strictly
monotone across identities.  For a user with no mapping, the first call
allocates the next index and stores the mapping; a second call for the same
user returns the same address with the database unchanged; a subsequent
first call for a different user allocates a strictly larger index; and the
allocated index strictly exceeds every index already stored for account 0,
so indices are never reused. -/
theorem generate_subaddress_idempotent_monotone
    (derive : Nat → Nat → String) (db : BridgeDb) (u1 : String) (u2 : String)
    (h1 : get_subaddress_for_secret_address db u1 = none)
    (h2 : get_subaddress_for_secret_address db u2 = none)
    (hne : u1 ≠ u2) :
    generate_subaddress derive (generate_subaddress derive db u1).2 u1
        = generate_subaddress derive db u1 ∧
    get_subaddress_for_secret_address (generate_subaddress derive db u1).2 u1
        = some (0, get_next_subaddress_index db 0,
                (generate_subaddress derive db u1).1) ∧
    get_subaddress_for_secret_address
        (generate_subaddress derive (generate_subaddress derive db u1).2 u2).2
        u2
        = some (0,
            get_next_subaddress_index (generate_subaddress derive db u1).2 0,
            (generate_subaddress derive (generate_subaddress derive db u1).2
              u2).1) ∧
    get_next_subaddress_index db 0
        < get_next_subaddress_index (generate_subaddress derive db u1).2 0 ∧
    (∀ m ∈ db.subaddress_mappings,
        m.account = 0 → m.subaddress_idx < get_next_subaddress_index db 0) := by
  have e1 := generate_subaddress_of_none derive db u1 h1
  have l1 : get_subaddress_for_secret_address (generate_subaddress derive db u1).2
      u1 = some (0, get_next_subaddress_index db 0,
        (generate_subaddress derive db u1).1) := by
    rw [e1]
    exact lookup_after_save db 0 (get_next_subaddress_index db 0) _ u1 h1
  have h2' : get_subaddress_for_secret_address
      (generate_subaddress derive db u1).2 u2 = none := by
    rw [e1]
    exact lookup_other_after_save db 0 (get_next_subaddress_index db 0) _ u1 u2
      (Ne.symm hne) h2
  refine ⟨?_, l1, ?_, ?_, ?_⟩
  · rw [generate_subaddress_of_some derive _ u1 0
      (get_next_subaddress_index db 0) (generate_subaddress derive db u1).1 l1]
  · have e2 := generate_subaddress_of_none derive
      (generate_subaddress derive db u1).2 u2 h2'
    rw [e2]
    exact lookup_after_save _ 0 _ _ u2 h2'
  · rw [e1]
    rw [get_next_after_save db _ u1]
    exact Nat.lt_succ_self _
  · exact fun m hm hacct => lt_get_next_subaddress_index db m hm hacct

/-- Derivation function used by the C3 witness, standing in for the
external cryptographic subaddress derivation. -/
def deriveFn : Nat → Nat → String := fun _ _ => subB

/-- C3 witness: the allocation properties observed concretely on the empty
database with users usrC and usrD. -/
theorem generate_subaddress_idempotent_monotone_witness :
    generate_subaddress deriveFn (generate_subaddress deriveFn BridgeDb.empty
        usrC).2 usrC
        = generate_subaddress deriveFn BridgeDb.empty usrC ∧
    get_subaddress_for_secret_address
        (generate_subaddress deriveFn BridgeDb.empty usrC).2 usrC
        = some (0, get_next_subaddress_index BridgeDb.empty 0,
                (generate_subaddress deriveFn BridgeDb.empty usrC).1) ∧
    get_subaddress_for_secret_address
        (generate_subaddress deriveFn
          (generate_subaddress deriveFn BridgeDb.empty usrC).2 usrD).2 usrD
        = some (0,
            get_next_subaddress_index
              (generate_subaddress deriveFn BridgeDb.empty usrC).2 0,
            (generate_subaddress deriveFn
              (generate_subaddress deriveFn BridgeDb.empty usrC).2 usrD).1) ∧
    get_next_subaddress_index BridgeDb.empty 0
        < get_next_subaddress_index
            (generate_subaddress deriveFn BridgeDb.empty usrC).2 0 ∧
    (∀ m ∈ BridgeDb.empty.subaddress_mappings,
        m.account = 0 →
          m.subaddress_idx < get_next_subaddress_index BridgeDb.empty 0) :=
  generate_subaddress_idempotent_monotone deriveFn BridgeDb.empty usrC usrD
    rfl rfl (by decide)

/- ------------------------------------------------------------------ -/
/- C8 : threshold signing sessions                                     -/
/- ------------------------------------------------------------------ -/

/-- Unfolding of evalPoly on a cons cell. -/
lemma evalPoly_cons (c : ℚ) (cs : List ℚ) (x : ℚ) :
    evalPoly (c :: cs) x = c + x * evalPoly cs x := rfl

/-- Every coefficient list denotes a genuine polynomial of degree below its
length with the same evaluation map. -/
lemma exists_poly_of_coeffs (coeffs : List ℚ) :
    ∃ f : Polynomial ℚ, f.degree < (coeffs.length : WithBot ℕ) ∧
      ∀ x : ℚ, f.eval x = evalPoly coeffs x := by
  induction coeffs with
  | nil =>
    refine ⟨0, ?_, ?_⟩
    · simp [Polynomial.degree_zero]
    · intro x
      simp [evalPoly]
  | cons c cs ih =>
    obtain ⟨g, hdeg, heval⟩ := ih
    refine ⟨Polynomial.C c + Polynomial.X * g, ?_, ?_⟩
    · have h1 : (Polynomial.C c).degree < ((cs.length + 1 : ℕ) : WithBot ℕ) :=
        lt_of_le_of_lt Polynomial.degree_C_le (by exact_mod_cast Nat.succ_pos cs.length)
      have h2 : (Polynomial.X * g).degree < ((cs.length + 1 : ℕ) : WithBot ℕ) := by
        have step1 : (Polynomial.X * g).degree ≤ 1 + g.degree :=
          le_trans (Polynomial.degree_mul_le _ _)
            (add_le_add_right Polynomial.degree_X_le _)
        have step2 : (1 : WithBot ℕ) + g.degree
            < (1 : WithBot ℕ) + (cs.length : WithBot ℕ) :=
          WithBot.add_lt_add_left (by simp) hdeg
        have step3 : (1 : WithBot ℕ) + (cs.length : WithBot ℕ)
            = ((cs.length + 1 : ℕ) : WithBot ℕ) := by
          rw [Nat.cast_add, Nat.cast_one, add_comm]
        exact lt_of_le_of_lt step1 (step3 ▸ step2)
      simpa using lt_of_le_of_lt (Polynomial.degree_add_le _ _) (max_lt h1 h2)
    · intro x
      simp [Polynomial.eval_add, Polynomial.eval_mul, Polynomial.eval_C,
        Polynomial.eval_X, heval x, evalPoly_cons]

/-- The executable Lagrange coefficient at zero agrees with the evaluation
at zero of the Mathlib Lagrange basis polynomial over the cast nodes. -/
lemma lagrangeCoeffAtZero_eq (S : Finset ℕ) (i : ℕ) :
    lagrangeCoeffAtZero S i
      = Polynomial.eval 0 (Lagrange.basis S (fun n : ℕ => (n : ℚ)) i) := by
  unfold lagrangeCoeffAtZero Lagrange.basis
  rw [Polynomial.eval_prod]
  apply Finset.prod_congr rfl
  intro j hj
  have hne : (j : ℚ) ≠ (i : ℚ) := by
    have hji := Finset.ne_of_mem_erase hj
    exact_mod_cast hji
  have h1 : (j : ℚ) - (i : ℚ) ≠ 0 := sub_ne_zero_of_ne hne
  have h2 : (i : ℚ) - (j : ℚ) ≠ 0 := sub_ne_zero_of_ne (Ne.symm hne)
  rw [Lagrange.basisDivisor]
  rw [Polynomial.eval_mul, Polynomial.eval_C, Polynomial.eval_sub,
    Polynomial.eval_X]
  field_simp
  ring

/-- Lagrange interpolation at zero: for a polynomial of degree below the
size of the node set, the Lagrange-weighted sum of its values at the nodes
recovers its value at zero. -/
lemma sum_lagrange_at_zero (S : Finset ℕ) (f : Polynomial ℚ)
    (hdeg : f.degree < (S.card : WithBot ℕ)) :
    ∑ i ∈ S, lagrangeCoeffAtZero S i * f.eval ((i : ℕ) : ℚ) = f.eval 0 := by
  have hinj : Set.InjOn (fun n : ℕ => (n : ℚ)) S := fun a _ b _ h =>
    Nat.cast_injective h
  have h := Lagrange.eq_interpolate hinj hdeg
  conv_rhs => rw [h]
  rw [Lagrange.interpolate_apply, Polynomial.eval_finset_sum]
  apply Finset.sum_congr rfl
  intro i _
  rw [Polynomial.eval_mul, Polynomial.eval_C, lagrangeCoeffAtZero_eq]
  ring

/-- Summing a function over the sorted listing of a finite set agrees with
the Finset sum. -/
lemma foldr_add_sort_map (S : Finset ℕ) (f : ℕ → ℚ) :
    ((S.sort (fun a b => a ≤ b)).map f).foldr (fun a b => a + b) 0
      = ∑ i ∈ S, f i := by
  have h1 : ((S.sort (fun a b => a ≤ b)).map f).foldr (fun a b => a + b) 0
      = ((S.sort (fun a b => a ≤ b)).map f).sum := rfl
  have hperm : ((S.sort (fun a b => a ≤ b)).map f).Perm (S.toList.map f) :=
    (Finset.sort_perm_toList _ _).map f
  rw [h1, hperm.sum_eq, Finset.sum_to_list]

/-- Aggregation succeeds with the sum of the shares when the share count
meets the threshold. -/
lemma aggregate_ok (co : FrostCoordinator) (shares : List ℚ)
    (h : ¬((shares.length : Int) < co.threshold)) :
    aggregate_signature_shares co shares
      = Except.ok (shares.foldr (fun a b => a + b) 0) := by
  unfold aggregate_signature_shares
  rw [if_neg h]

/-- C8: for every signing set S of size between the threshold T and the
participant count N, the coordinator-driven session with honest
participants ends in the VERIFIED terminal state with a signature valid
under the group public key; for every set smaller than T the session never
reaches VERIFIED, the coordinator raising the threshold-protocol error, and
likewise aggregation of fewer than T shares fails. -/
theorem coordinate_signing_threshold (T : Nat) (N : Nat) (coeffs : List ℚ)
    (hash : ℚ → ℚ → ℚ) (msg : ℚ) (nonce : ℕ → ℚ) (S : Finset ℕ)
    (hlen : coeffs.length = T) (_hcard : S.card ≤ N) :
    (T ≤ S.card →
      coordinate_signing ⟨(T : Int), (N : Int)⟩ coeffs hash msg S nonce
        = Except.ok (SessionState.verified, ∑ i ∈ S, nonce i,
            ∑ i ∈ S, signature_share coeffs S nonce
              (hash (∑ i ∈ S, nonce i) msg) i) ∧
      schnorr_verify (group_public_key coeffs) hash msg (∑ i ∈ S, nonce i)
          (∑ i ∈ S, signature_share coeffs S nonce
            (hash (∑ i ∈ S, nonce i) msg) i) = true) ∧
    (S.card < T →
      coordinate_signing ⟨(T : Int), (N : Int)⟩ coeffs hash msg S nonce
        = Except.error
            (FrostErrorKind.notEnoughParticipants (T : Int) S.card)) ∧
    (∀ shares : List ℚ, shares.length < T →
      aggregate_signature_shares ⟨(T : Int), (N : Int)⟩ shares
        = Except.error
            (FrostErrorKind.notEnoughShares (T : Int) shares.length)) := by
  refine ⟨?_, ?_, ?_⟩
  · intro hT
    have hguard : ¬((S.card : Int) < (T : Int)) := by exact_mod_cast not_lt.mpr hT
    have hz : (∑ i ∈ S, signature_share coeffs S nonce
          (hash (∑ i ∈ S, nonce i) msg) i)
        = (∑ i ∈ S, nonce i)
          + hash (∑ i ∈ S, nonce i) msg * group_public_key coeffs := by
      obtain ⟨f, hdeg, heval⟩ := exists_poly_of_coeffs coeffs
      have hdeg2 : f.degree < (S.card : WithBot ℕ) := by
        rw [hlen] at hdeg
        exact lt_of_lt_of_le hdeg (by exact_mod_cast hT)
      have hlag := sum_lagrange_at_zero S f hdeg2
      unfold signature_share group_public_key
      rw [Finset.sum_add_distrib]
      congr 1
      rw [← Finset.mul_sum]
      congr 1
      calc ∑ i ∈ S, lagrangeCoeffAtZero S i * evalPoly coeffs ((i : ℕ) : ℚ)
          = ∑ i ∈ S, lagrangeCoeffAtZero S i * f.eval ((i : ℕ) : ℚ) := by
            refine Finset.sum_congr rfl (fun i _ => ?_)
            rw [heval]
        _ = f.eval 0 := hlag
        _ = evalPoly coeffs 0 := heval 0
    have hv : schnorr_verify (group_public_key coeffs) hash msg
        (∑ i ∈ S, nonce i)
        (∑ i ∈ S, signature_share coeffs S nonce
          (hash (∑ i ∈ S, nonce i) msg) i) = true := by
      unfold schnorr_verify
      rw [hz]
      simp
    have hlist : ((S.sort (fun a b => a ≤ b)).map
        (signature_share coeffs S nonce
          (hash (∑ i ∈ S, nonce i) msg))).length = S.card := by
      rw [List.length_map, Finset.length_sort]
    have hA : aggregate_signature_shares ⟨(T : Int), (N : Int)⟩
        ((S.sort (fun a b => a ≤ b)).map
          (signature_share coeffs S nonce (hash (∑ i ∈ S, nonce i) msg)))
        = Except.ok (∑ i ∈ S, signature_share coeffs S nonce
            (hash (∑ i ∈ S, nonce i) msg) i) := by
      rw [aggregate_ok _ _ (by rw [hlist]; exact hguard)]
      rw [foldr_add_sort_map]
    refine ⟨?_, hv⟩
    unfold coordinate_signing
    rw [if_neg hguard, hA]
    simp only [hv, if_true]
  · intro hlt
    have hguard : (S.card : Int) < (T : Int) := by exact_mod_cast hlt
    unfold coordinate_signing
    rw [if_pos hguard]
  · intro shares hlt
    have hguard : (shares.length : Int) < (T : Int) := by exact_mod_cast hlt
    unfold aggregate_signature_shares
    rw [if_pos hguard]

/-- Challenge hash used by the C8 witness. -/
def hashFn : ℚ → ℚ → ℚ := fun r m => r + m

/-- Nonces used by the C8 witness. -/
def nonceFn : ℕ → ℚ := fun i => (i : ℚ) + 7

/-- Secret polynomial coefficients used by the C8 witness: degree one, so
threshold two. -/
def coeffsW : List ℚ := [5, 3]

/-- C8 witness: the 2-of-3 session over the signing set containing
participants 1 and 2 observed concretely through the theorem. -/
theorem coordinate_signing_threshold_witness :
    (2 ≤ ({1, 2} : Finset ℕ).card →
      coordinate_signing ⟨(2 : Int), (3 : Int)⟩ coeffsW hashFn 4
          ({1, 2} : Finset ℕ) nonceFn
        = Except.ok (SessionState.verified,
            ∑ i ∈ ({1, 2} : Finset ℕ), nonceFn i,
            ∑ i ∈ ({1, 2} : Finset ℕ), signature_share coeffsW
              ({1, 2} : Finset ℕ) nonceFn
              (hashFn (∑ i ∈ ({1, 2} : Finset ℕ), nonceFn i) 4) i) ∧
      schnorr_verify (group_public_key coeffsW) hashFn 4
          (∑ i ∈ ({1, 2} : Finset ℕ), nonceFn i)
          (∑ i ∈ ({1, 2} : Finset ℕ), signature_share coeffsW
            ({1, 2} : Finset ℕ) nonceFn
            (hashFn (∑ i ∈ ({1, 2} : Finset ℕ), nonceFn i) 4) i) = true) ∧
    (({1, 2} : Finset ℕ).card < 2 →
      coordinate_signing ⟨(2 : Int), (3 : Int)⟩ coeffsW hashFn 4
          ({1, 2} : Finset ℕ) nonceFn
        = Except.error (FrostErrorKind.notEnoughParticipants (2 : Int)
            ({1, 2} : Finset ℕ).card)) ∧
    (∀ shares : List ℚ, shares.length < 2 →
      aggregate_signature_shares ⟨(2 : Int), (3 : Int)⟩ shares
        = Except.error (FrostErrorKind.notEnoughShares (2 : Int)
            shares.length)) :=
  coordinate_signing_threshold 2 3 coeffsW hashFn 4 nonceFn
    ({1, 2} : Finset ℕ) rfl (by decide)

end XmrBridge
